import Mathlib

/-!
Shallow embedding of the QuantumWaveFunctionSimulator backend
(`src/backend/utils/grid.py`, `src/backend/utils/numerics.py`,
`src/backend/potentials/basic.py`, `src/backend/solvers/schrodinger_1d.py`,
`src/backend/solvers/schrodinger_2d.py`) over exact rational arithmetic,
together with theorems settling the frozen claims about the spec.

Conventions of the embedding:
* floating-point numbers become `ℚ` (exact arithmetic); complex numbers
  become pairs `ℚ × ℚ` of real and imaginary part;
* numpy arrays become `List ℚ` / `List (List ℚ)`; sparse matrices become
  index functions `ℕ → ℕ → ℚ` together with an explicit size;
* Python exceptions become `Except PyNumErr`;
* external library calls whose numerics the repository does not implement
  (LAPACK `scipy.linalg.eigh`, the sparse LU solve `splu(A).solve`, and
  `numpy.sqrt`) are abstracted as function parameters; their documented
  contracts appear as explicit hypotheses of the theorems that need them.
-/

/-- Python exception kinds raised by the embedded code paths. -/
inductive PyNumErr where
  | notImplementedError
  | indexError
  | valueError
  deriving DecidableEq, Repr

/-- Complex scalar as a pair of rationals (re, im). -/
abbrev CQ := ℚ × ℚ

/-- Complex addition. -/
def cadd (z w : CQ) : CQ := (z.1 + w.1, z.2 + w.2)

/-- Complex multiplication. -/
def cmul (z w : CQ) : CQ := (z.1 * w.1 - z.2 * w.2, z.1 * w.2 + z.2 * w.1)

/-- Scaling of a complex number by a real (rational) scalar; this is what
`psi /= norm` does elementwise in the solvers. -/
def csmul (r : ℚ) (z : CQ) : CQ := (r * z.1, r * z.2)

/-- Squared modulus `np.abs(z)**2` of a complex sample. -/
def normSq (z : CQ) : ℚ := z.1 ^ 2 + z.2 ^ 2

/-- Embedding of `np.trapz(y, x)`: the composite trapezoidal rule
`Σ (x[i+1]-x[i]) * (y[i]+y[i+1]) / 2` over consecutive samples. -/
def trapz : List ℚ → List ℚ → ℚ
  | y0 :: y1 :: ys, x0 :: x1 :: xs =>
      (x1 - x0) * (y0 + y1) / 2 + trapz (y1 :: ys) (x1 :: xs)
  | _, _ => 0

/-- Grid-quadrature squared norm `np.trapz(np.abs(psi)**2, x)` of a complex
vector, as computed by the 1D solvers. -/
def trapzNormSq (x : List ℚ) (psi : List CQ) : ℚ :=
  trapz (psi.map normSq) x

/-- Embedding of `numpy.linspace(a, b, n)`: `x[i] = a + (b-a)*i/(n-1)`. -/
def linspace (a b : ℚ) (n : ℕ) : List ℚ :=
  (List.range n).map (fun (i : ℕ) => a + (b - a) * (i : ℚ) / ((n : ℚ) - 1))

/-- Embedding of `create_1d_grid` (src/backend/utils/grid.py, lines 3-18):
raises `ValueError` when `num_points < 2`, otherwise returns
`np.linspace(xmin, xmax, num_points)` together with `dx = x[1] - x[0]`. -/
def create_1d_grid (xmin xmax : ℚ) (num_points : ℕ) :
    Except PyNumErr (List ℚ × ℚ) :=
  if num_points < 2 then .error .valueError
  else
    let x := linspace xmin xmax num_points
    .ok (x, x.getD 1 0 - x.getD 0 0)

/-- The spacing `dx = x[1] - x[0]` recomputed by the solvers from the grid
array (src/backend/solvers/schrodinger_1d.py, line 20). -/
def solverDx (x : List ℚ) : ℚ := x.getD 1 0 - x.getD 0 0

/-- Entry `(i, j)` of the 1D finite-difference Laplacian
`diags([off, main, off], [-1, 0, 1]) / dx**2` of size `n`, where the main
diagonal is `-2` and the off diagonals are `1`. -/
def lap1dEntry (n : ℕ) (d : ℚ) (i j : ℕ) : ℚ :=
  if i < n ∧ j < n then
    (if i = j then -2 else if i + 1 = j ∨ j + 1 = i then 1 else 0) / d ^ 2
  else 0

/-- Entry `(i, j)` of the identity matrix of size `n` (`scipy.sparse.identity`). -/
def idEntry (n : ℕ) (i j : ℕ) : ℚ :=
  if i = j ∧ i < n then 1 else 0

/-- Entry `(i, j)` of the 1D Hamiltonian `H = -(hbar**2)/(2*mass) * laplacian
+ diags(V, 0)` assembled by `solve_time_independent_1d` and
`solve_time_dependent_1d`. -/
def Hmat1d (n : ℕ) (d : ℚ) (Vf : ℕ → ℚ) (mass hbar : ℚ) (i j : ℕ) : ℚ :=
  -(hbar ^ 2) / (2 * mass) * lap1dEntry n d i j + (if i = j ∧ i < n then Vf i else 0)

/-- Entry of `scipy.sparse.kron A B` where `A` is `p × p` and `B` is `q × q`:
row index `k` decomposes as `k = (k / q) * q + k % q` and
`kron A B [k, k'] = A[k/q, k'/q] * B[k%q, k'%q]`. -/
def kron (q : ℕ) (A B : ℕ → ℕ → ℚ) (k k' : ℕ) : ℚ :=
  A (k / q) (k' / q) * B (k % q) (k' % q)

/-- Entry `(k, k')` of the 2D Laplacian assembled by both 2D solvers:
`Lap = kron(identity(Ny), Lx) + kron(Ly, identity(Nx))`
(src/backend/solvers/schrodinger_2d.py, line 30 and line 77). -/
def Lap2d (Nx Ny : ℕ) (dx dy : ℚ) (k k' : ℕ) : ℚ :=
  kron Nx (idEntry Ny) (lap1dEntry Nx dx) k k' +
  kron Nx (lap1dEntry Ny dy) (idEntry Nx) k k'

/-- Row-major (C-order) flattening of a 2D grid function of shape `(Nx, Ny)`,
the ordering used by `V.ravel()`, `psi0.ravel()` and `reshape((Nx, Ny))`:
flat index `k` denotes grid point `(k / Ny, k % Ny)`. -/
def ravelC (Ny : ℕ) (f : ℕ → ℕ → ℚ) (k : ℕ) : ℚ :=
  f (k / Ny) (k % Ny)

/-- Matrix-vector product of an `N × N` matrix given by entries against an
index function vector. -/
def matvec (N : ℕ) (M : ℕ → ℕ → ℚ) (v : ℕ → ℚ) (k : ℕ) : ℚ :=
  ((List.range N).map (fun j => M k j * v j)).sum

/-- The pointwise 5-point central finite-difference Laplacian with Dirichlet
boundary (neighbors outside the grid omitted), applied to a grid function at
grid point `(i, j)` of an `Nx × Ny` grid.  This is the operator the spec says
the assembled matrix applies at the grid point each flattened index denotes. -/
def stencil2d (Nx Ny : ℕ) (dx dy : ℚ) (f : ℕ → ℕ → ℚ) (i j : ℕ) : ℚ :=
  ((if 1 ≤ i then f (i - 1) j else 0) + (if i + 1 < Nx then f (i + 1) j else 0)
      - 2 * f i j) / dx ^ 2 +
  ((if 1 ≤ j then f i (j - 1) else 0) + (if j + 1 < Ny then f i (j + 1) else 0)
      - 2 * f i j) / dy ^ 2

/-- A concrete 2 × 3 grid function used to probe the index orderings:
`psiEx i j = 3*i + j`, whose C-order flattening is `[0, 1, 2, 3, 4, 5]`. -/
def psiEx (i j : ℕ) : ℚ := 3 * i + j

/-- An IEEE-float value restricted to what the potential arrays hold: either a
finite rational or `+inf` (`np.inf`). -/
inductive FV where
  | fin (q : ℚ)
  | pinf
  deriving DecidableEq, Repr

/-- Float addition on the values above: adding `+inf` to any finite value
gives `+inf`. -/
def FV.add : FV → FV → FV
  | .fin a, .fin b => .fin (a + b)
  | _, _ => .pinf

/-- Embedding of `infinite_well_1d` (src/backend/potentials/basic.py,
lines 4-11): `V = np.zeros_like(x)` followed by
`V[(x < xmin) | (x > xmax)] = np.inf`. -/
def infinite_well_1d (x : List ℚ) (xmin xmax : ℚ) : List FV :=
  x.map (fun xi => if xi < xmin ∨ xi > xmax then FV.pinf else FV.fin 0)

/-- Entry `(i, j)` of the dense matrix `H.toarray()` handed to
`scipy.linalg.eigh` by `solve_time_independent_1d`
(src/backend/solvers/schrodinger_1d.py, lines 22-33), computed in float
semantics extended with `+inf`: the finite kinetic entry plus the potential
diagonal entry, with no masking or replacement of infinities anywhere on the
path. -/
def H_dense_1d_ext (x : List ℚ) (V : List FV) (mass hbar : ℚ) (i j : ℕ) : FV :=
  FV.add
    (FV.fin (-(hbar ^ 2) / (2 * mass) * lap1dEntry x.length (solverDx x) i j))
    (if i = j ∧ i < x.length then V.getD i (FV.fin 0) else FV.fin 0)

/-- Insertion of a rational into a list sorted by ascending magnitude. -/
def insertByAbs (a : ℚ) : List ℚ → List ℚ
  | [] => [a]
  | b :: l => if |a| ≤ |b| then a :: b :: l else b :: insertByAbs a l

/-- Insertion sort of a list of rationals by ascending magnitude. -/
def sortByAbs : List ℚ → List ℚ
  | [] => []
  | a :: l => insertByAbs a (sortByAbs l)

/-- Insertion of a rational into a list sorted ascending. -/
def insertByLe (a : ℚ) : List ℚ → List ℚ
  | [] => [a]
  | b :: l => if a ≤ b then a :: b :: l else b :: insertByLe a l

/-- Insertion sort of a list of rationals, ascending. -/
def sortByLe : List ℚ → List ℚ
  | [] => []
  | a :: l => insertByLe a (sortByLe l)

/-- Modelled scipy semantics of the call
`eigsh(H, k=num_eigen, which='SM')` made by `solve_time_independent_2d`
(src/backend/solvers/schrodinger_2d.py, line 35): of the full spectrum of the
operator, ARPACK with `which='SM'` returns the `k` eigenvalues *smallest in
magnitude*. -/
def eigsh_SM (spectrum : List ℚ) (k : ℕ) : List ℚ :=
  (sortByAbs spectrum).take k

/-- The selection the claim and the spec describe: the `k` *algebraically
smallest* eigenvalues of the spectrum. -/
def lowestAlgebraic (spectrum : List ℚ) (k : ℕ) : List ℚ :=
  (sortByLe spectrum).take k

/-- Normalization of one eigenvector column performed by the loop in
`solve_time_independent_1d` (lines 38-40):
`wavefuncs[:, n] /= np.sqrt(np.trapz(np.abs(wavefuncs[:, n])**2, x))`,
with `sqrtq` standing for `numpy.sqrt`. -/
def normalizeCol (sqrtq : ℚ → ℚ) (x : List ℚ) (col : List ℚ) : List ℚ :=
  col.map (fun c => c / sqrtq (trapz (col.map (fun v => v ^ 2)) x))

/-- Embedding of `solve_time_independent_1d`
(src/backend/solvers/schrodinger_1d.py, lines 6-41).  The external dense
eigen-decomposition `scipy.linalg.eigh` is abstracted as a parameter `eigh`
mapping the dense matrix and its size to the pair (eigenvalues, eigenvector
columns); `sqrtq` stands for `numpy.sqrt`.  After slicing
`energies[:num_eigen]` and `wavefuncs[:, :num_eigen]`, the normalization loop
`for n in range(num_eigen)` reads column `n`, which raises `IndexError` as
soon as `n` reaches the number of available columns. -/
def solve_time_independent_1d
    (eigh : (ℕ → ℕ → ℚ) → ℕ → List ℚ × List (List ℚ))
    (sqrtq : ℚ → ℚ) (x V : List ℚ) (mass hbar : ℚ) (num_eigen : ℕ) :
    Except PyNumErr (List ℚ × List (List ℚ)) :=
  if x.length < 2 then .error .indexError
  else
    let H := Hmat1d x.length (solverDx x) (fun i => V.getD i 0) mass hbar
    let ev := eigh H x.length
    let energies := ev.1.take num_eigen
    let wavefuncs := ev.2.take num_eigen
    if num_eigen ≤ wavefuncs.length then
      .ok (energies, wavefuncs.map (normalizeCol sqrtq x))
    else .error .indexError

/-- The time-stepping loop shared by both time-dependent solvers: starting
from the state after step 0, apply `f` once per remaining time point and
collect the successive states (`for n in range(1, len(times))`).
`cnLoop f v m` is the list `[f v, f (f v), ...]` of length `m`. -/
def cnLoop (f : α → α) : α → ℕ → List α
  | _, 0 => []
  | v, m + 1 => f v :: cnLoop f (f v) m

/-- Entry `(k, k')` of the complex matrix `B = I - 1j * dt * H / (2 * hbar)`
applied on the right-hand side of each Crank-Nicolson step, for a real
Hamiltonian given by its entries. -/
def Bentry (H : ℕ → ℕ → ℚ) (dt hbar : ℚ) (k k' : ℕ) : CQ :=
  ((if k = k' then 1 else 0), -(dt / (2 * hbar)) * H k k')

/-- Complex matrix-vector product of an `N × N` complex matrix against a
complex vector stored as a list. -/
def cmatvec (N : ℕ) (M : ℕ → ℕ → CQ) (v : List CQ) : List CQ :=
  (List.range N).map
    (fun k => ((List.range N).map (fun j => cmul (M k j) (v.getD j (0, 0)))).foldr cadd (0, 0))

/-- The product `B.dot(psi)` computed by `solve_time_dependent_1d`
(src/backend/solvers/schrodinger_1d.py, line 76) with
`B = I - 1j * dt * H / (2 * hbar)` and `H` the 1D Hamiltonian. -/
def bdot_1d (x V : List ℚ) (mass hbar dt : ℚ) (psi : List CQ) : List CQ :=
  cmatvec x.length
    (Bentry (Hmat1d x.length (solverDx x) (fun i => V.getD i 0) mass hbar) dt hbar) psi

/-- The per-step rescaling performed by `solve_time_dependent_1d`
(lines 78-80): `psi /= np.sqrt(np.trapz(np.abs(psi)**2, x))`, with `sqrtq`
standing for `numpy.sqrt`. -/
def normalize_step_1d (sqrtq : ℚ → ℚ) (x : List ℚ) (w : List CQ) : List CQ :=
  w.map (csmul (1 / sqrtq (trapzNormSq x w)))

/-- Embedding of `solve_time_dependent_1d`
(src/backend/solvers/schrodinger_1d.py, lines 43-81).  The sparse LU solve
`splu(A).solve` is abstracted as the parameter `luSolve`; everything else
(the method gate, the index accesses `x[1]` and `times[1]`, the product with
`B`, the per-step rescaling, and the snapshot list with `psi_t[0] = psi0`)
is embedded directly. -/
def solve_time_dependent_1d (sqrtq : ℚ → ℚ) (luSolve : List CQ → List CQ)
    (x : List ℚ) (psi0 : List CQ) (V : List ℚ) (times : List ℚ)
    (mass hbar : ℚ) (method : String) :
    Except PyNumErr (List (List CQ)) :=
  if method ≠ "crank-nicolson" then .error .notImplementedError
  else if x.length < 2 then .error .indexError
  else if times.length < 2 then .error .indexError
  else
    let dt := times.getD 1 0 - times.getD 0 0
    .ok (psi0 ::
      cnLoop (fun v => normalize_step_1d sqrtq x (luSolve (bdot_1d x V mass hbar dt v)))
        psi0 (times.length - 1))

/-- Fuel-indexed chunking of a flat list into rows of width `ny`; with fuel at
least the list length and `ny ≥ 1` this is numpy `reshape((Nx, Ny))` of a
length-`Nx*Ny` vector in C order. -/
def chunksF : ℕ → ℕ → List α → List (List α)
  | 0, _, _ => []
  | _ + 1, _, [] => []
  | fuel + 1, ny, a :: l => (a :: l).take ny :: chunksF fuel ny ((a :: l).drop ny)

/-- Row-major unflattening `vec.reshape((Nx, Ny))` used for each emitted 2D
snapshot: split the flat vector into consecutive rows of length `ny`. -/
def reshape2 (ny : ℕ) (l : List α) : List (List α) :=
  chunksF l.length ny l

/-- Row-major flattening `arr.ravel()` of a 2D array stored as a list of
rows. -/
def ravelL (g : List (List α)) : List α := g.flatten

/-- Nested trapezoidal quadrature
`np.trapz(np.trapz(arr, Y[0,:]), X[:,0])` of a real grid: the inner `trapz`
integrates each row against `ys`, the outer one integrates the results
against `xs`. -/
def trapz2 (g : List (List ℚ)) (xs ys : List ℚ) : ℚ :=
  trapz (g.map (fun row => trapz row ys)) xs

/-- Elementwise squared modulus `np.abs(psi)**2` of a complex grid. -/
def gridNormSq (g : List (List CQ)) : List (List ℚ) :=
  g.map (fun row => row.map normSq)

/-- Grid-quadrature squared norm of a flattened 2D state, as computed by
`solve_time_dependent_2d` (line 89): reshape to the grid, take `abs**2`, and
apply the nested trapezoidal rule. -/
def vecNormSq2d (ny : ℕ) (xs ys : List ℚ) (w : List CQ) : ℚ :=
  trapz2 (gridNormSq (reshape2 ny w)) xs ys

/-- The per-step rescaling performed by `solve_time_dependent_2d`
(lines 88-90): `psi_vec /= np.sqrt(...)` with the squared norm above. -/
def normalize_step_2d (sqrtq : ℚ → ℚ) (ny : ℕ) (xs ys : List ℚ) (w : List CQ) :
    List CQ :=
  w.map (csmul (1 / sqrtq (vecNormSq2d ny xs ys w)))

/-- Entry `(k, k')` of the 2D Hamiltonian
`H = -(hbar**2)/(2*mass) * Lap + diags(V.ravel(), 0)` assembled by both 2D
solvers (src/backend/solvers/schrodinger_2d.py, lines 31-34 and 78-81). -/
def Hmat2d (Nx Ny : ℕ) (dx dy : ℚ) (Vflat : List ℚ) (mass hbar : ℚ)
    (k k' : ℕ) : ℚ :=
  -(hbar ^ 2) / (2 * mass) * Lap2d Nx Ny dx dy k k' +
  (if k = k' ∧ k < Nx * Ny then Vflat.getD k 0 else 0)

/-- The product `B.dot(psi_vec)` computed by `solve_time_dependent_2d`
(line 87) with `B = I - 1j * dt * H / (2 * hbar)` and `H` the 2D
Hamiltonian over the flattened grid. -/
def bdot_2d (Nx Ny : ℕ) (dx dy : ℚ) (Vflat : List ℚ) (mass hbar dt : ℚ)
    (psi : List CQ) : List CQ :=
  cmatvec (Nx * Ny) (Bentry (Hmat2d Nx Ny dx dy Vflat mass hbar) dt hbar) psi

/-- Embedding of `solve_time_dependent_2d`
(src/backend/solvers/schrodinger_2d.py, lines 45-92).  `X` and `Y` are the
meshgrid arrays as lists of rows; `Nx, Ny = X.shape`; the spacings come from
`X[1,0] - X[0,0]` and `Y[0,1] - Y[0,0]`; the loop advances the C-order
flattened vector `psi0.ravel()`, rescales it to quadrature-unit norm after
each abstracted LU solve, and emits `reshape((Nx, Ny))` snapshots after the
initial state `psi_t[0] = psi0`. -/
def solve_time_dependent_2d (sqrtq : ℚ → ℚ) (luSolve : List CQ → List CQ)
    (X Y : List (List ℚ)) (psi0 : List (List CQ)) (V : List (List ℚ))
    (times : List ℚ) (mass hbar : ℚ) (method : String) :
    Except PyNumErr (List (List (List CQ))) :=
  if method ≠ "crank-nicolson" then .error .notImplementedError
  else if X.length < 2 then .error .indexError
  else if (X.getD 0 []).length < 2 then .error .indexError
  else if times.length < 2 then .error .indexError
  else
    let Nx := X.length
    let Ny := (X.getD 0 []).length
    let dx := (X.getD 1 []).getD 0 0 - (X.getD 0 []).getD 0 0
    let dy := (Y.getD 0 []).getD 1 0 - (Y.getD 0 []).getD 0 0
    let dt := times.getD 1 0 - times.getD 0 0
    let xs := X.map (fun row => row.getD 0 0)
    let ys := Y.getD 0 []
    .ok (psi0 ::
      (cnLoop
        (fun v => normalize_step_2d sqrtq Ny xs ys
          (luSolve (bdot_2d Nx Ny dx dy (ravelL V) mass hbar dt v)))
        (ravelL psi0) (times.length - 1)).map (reshape2 Ny))

/-- Embedding of `expectation_custom_expr_1d`
(src/backend/utils/numerics.py, lines 105-123): with `O` the array produced
by the external expression evaluator, the returned value is
`np.sum(O) * dx / np.sum(np.abs(psi)**2 * dx)` — plain sums, with
`dx = x[1] - x[0]`. -/
def expectation_custom_expr_1d (x : List ℚ) (psi : List CQ) (O : List ℚ) : ℚ :=
  O.sum * solverDx x / (psi.map (fun z => normSq z * solverDx x)).sum

/-- Embedding of `expectation_custom_expr_2d`
(src/backend/utils/numerics.py, lines 125-144): the returned value is
`np.sum(O) * dx * dy / np.sum(np.abs(psi)**2 * dx * dy)` with
`dx = X[1,0] - X[0,0]` and `dy = Y[0,1] - Y[0,0]`. -/
def expectation_custom_expr_2d (X Y : List (List ℚ)) (psi : List (List CQ))
    (O : List (List ℚ)) : ℚ :=
  let dx := (X.getD 1 []).getD 0 0 - (X.getD 0 []).getD 0 0
  let dy := (Y.getD 0 []).getD 1 0 - (Y.getD 0 []).getD 0 0
  (O.map List.sum).sum * dx * dy /
    ((gridNormSq psi).map (fun row => (row.map (fun q => q * dx * dy)).sum)).sum

/-- The ratio of composite trapezoidal quadratures that the claim says the
1D expectation is computed by: `trapz(O, x) / trapz(|psi|**2, x)`. -/
def trapzExpectation1d (x : List ℚ) (psi : List CQ) (O : List ℚ) : ℚ :=
  trapz O x / trapz (psi.map normSq) x

/-- The plain-Riemann-sum ratio that the code actually computes, written the
way the amended claim states it: every sample, boundary samples included,
weighted by the full spacing `dx`. -/
def riemannExpectation1d (x : List ℚ) (psi : List CQ) (O : List ℚ) : ℚ :=
  (O.sum * solverDx x) / ((psi.map normSq).sum * solverDx x)

/-- The 2D plain-Riemann-sum ratio of the amended claim: every sample
weighted by the full cell area `dx * dy`. -/
def riemannExpectation2d (X Y : List (List ℚ)) (psi : List (List CQ))
    (O : List (List ℚ)) : ℚ :=
  let dx := (X.getD 1 []).getD 0 0 - (X.getD 0 []).getD 0 0
  let dy := (Y.getD 0 []).getD 1 0 - (Y.getD 0 []).getD 0 0
  ((O.map List.sum).sum * (dx * dy)) /
    (((gridNormSq psi).map List.sum).sum * (dx * dy))

/-- Embedding of `save_simulation` (src/backend/utils/numerics.py,
lines 146-150): `np.savez_compressed(filename, **kwargs)` writes an archive
holding each keyword array under its name; the archive contents are modelled
as the association list of named arrays. -/
def save_simulation (kwargs : List (String × List ℚ)) : List (String × List ℚ) :=
  kwargs

/-- Embedding of `load_simulation` (src/backend/utils/numerics.py,
lines 152-157): `np.load` returns a dict-like object mapping each stored name
to its array, modelled as lookup in the archive's association list. -/
def load_simulation (archive : List (String × List ℚ)) (name : String) :
    Option (List ℚ) :=
  (archive.find? (fun p => p.1 == name)).map Prod.snd

/-- Normalization of one reshaped eigenvector grid performed by the loop in
`solve_time_independent_2d` (src/backend/solvers/schrodinger_2d.py,
lines 38-42): `wf = wavefuncs[:, n].reshape((Nx, Ny))`, then
`wf / np.sqrt(np.trapz(np.trapz(np.abs(wf)**2, Y[0,:]), X[:,0]))`, with
`sqrtq` standing for `numpy.sqrt`. -/
def normalizeGrid (sqrtq : ℚ → ℚ) (xs ys : List ℚ) (g : List (List ℚ)) :
    List (List ℚ) :=
  g.map (fun row => row.map
    (fun c => c / sqrtq (trapz2 (g.map (fun r => r.map (fun v => v ^ 2))) xs ys)))

/-- Embedding of `solve_time_independent_2d`
(src/backend/solvers/schrodinger_2d.py, lines 5-43).  The sparse iterative
eigen-decomposition is abstracted as the parameter `eigshF` mapping the
assembled Hamiltonian, its size `N = Nx * Ny` and the requested count `k` to
a pair (eigenvalues, eigenvector columns); per scipy's documented contract
the call `eigsh(H, k=num_eigen, which='SM')` raises `ValueError` unless
`1 ≤ k < N`.  The spacings come from `X[1,0] - X[0,0]` and
`Y[0,1] - Y[0,0]` (IndexError when a grid axis has fewer than 2 points); the
returned energies are passed through unchanged, and each of the `num_eigen`
accessed columns is reshaped in C order to the `(Nx, Ny)` grid and rescaled
to quadrature-unit norm. -/
def solve_time_independent_2d
    (eigshF : (ℕ → ℕ → ℚ) → ℕ → ℕ → List ℚ × List (List ℚ))
    (sqrtq : ℚ → ℚ) (X Y : List (List ℚ)) (V : List (List ℚ))
    (mass hbar : ℚ) (num_eigen : ℕ) :
    Except PyNumErr (List ℚ × List (List (List ℚ))) :=
  if X.length < 2 then .error .indexError
  else if (X.getD 0 []).length < 2 then .error .indexError
  else
    let Nx := X.length
    let Ny := (X.getD 0 []).length
    let dx := (X.getD 1 []).getD 0 0 - (X.getD 0 []).getD 0 0
    let dy := (Y.getD 0 []).getD 1 0 - (Y.getD 0 []).getD 0 0
    let H := Hmat2d Nx Ny dx dy (ravelL V) mass hbar
    if num_eigen < 1 ∨ Nx * Ny ≤ num_eigen then .error .valueError
    else
      let ev := eigshF H (Nx * Ny) num_eigen
      if num_eigen ≤ ev.2.length then
        .ok (ev.1, (ev.2.take num_eigen).map (fun col =>
          normalizeGrid sqrtq (X.map (fun row => row.getD 0 0)) (Y.getD 0 [])
            (reshape2 Ny col)))
      else .error .indexError


theorem trapz_map_mul (c : ℚ) :
    ∀ (y x : List ℚ), trapz (y.map (fun q => c * q)) x = c * trapz y x
  | y0 :: y1 :: ys, x0 :: x1 :: xs => by
      have ih := trapz_map_mul c (y1 :: ys) (x1 :: xs)
      simp only [List.map_cons] at ih ⊢
      rw [trapz, trapz, ih]
      ring
  | [], _ => by simp [trapz]
  | [_], _ => by
      simp only [List.map_cons, List.map_nil]
      rw [show ∀ a (x : List ℚ), trapz [a] x = 0 from fun _ _ => rfl,
        show ∀ a (x : List ℚ), trapz [a] x = 0 from fun _ _ => rfl]
      ring
  | _ :: _ :: _, [] => by
      simp only [List.map_cons]
      rw [show ∀ a b (l : List ℚ), trapz (a :: b :: l) [] = 0 from fun _ _ _ => rfl,
        show ∀ a b (l : List ℚ), trapz (a :: b :: l) [] = 0 from fun _ _ _ => rfl]
      ring
  | _ :: _ :: _, [_] => by
      simp only [List.map_cons]
      rw [show ∀ a b (l : List ℚ) c, trapz (a :: b :: l) [c] = 0 from fun _ _ _ _ => rfl,
        show ∀ a b (l : List ℚ) c, trapz (a :: b :: l) [c] = 0 from fun _ _ _ _ => rfl]
      ring

theorem trapzNormSq_smul (x : List ℚ) (w : List CQ) (r : ℚ) :
    trapzNormSq x (w.map (csmul r)) = r ^ 2 * trapzNormSq x w := by
  have h : (w.map (csmul r)).map normSq = (w.map normSq).map (fun q => r ^ 2 * q) := by
    simp only [List.map_map]
    refine List.map_congr_left (fun z _ => ?_)
    simp [normSq, csmul]
    ring
  rw [trapzNormSq, h, trapz_map_mul, trapzNormSq]

theorem normalize_step_1d_unitNorm (sqrtq : ℚ → ℚ) (x : List ℚ) (w : List CQ)
    (hpos : 0 < trapzNormSq x w)
    (hsq : sqrtq (trapzNormSq x w) ^ 2 = trapzNormSq x w) :
    trapzNormSq x (normalize_step_1d sqrtq x w) = 1 := by
  rw [normalize_step_1d, trapzNormSq_smul, one_div, inv_pow, hsq]
  exact inv_mul_cancel₀ (ne_of_gt hpos)

theorem chunksF_map (f : α → β) :
    ∀ (fuel ny : ℕ) (l : List α),
      chunksF fuel ny (l.map f) = (chunksF fuel ny l).map (List.map f)
  | 0, _, _ => by simp [chunksF]
  | _ + 1, _, [] => by simp [chunksF]
  | fuel + 1, ny, a :: l => by
      have e1 : chunksF (fuel + 1) ny ((a :: l).map f)
          = ((a :: l).map f).take ny :: chunksF fuel ny (((a :: l).map f).drop ny) := rfl
      have e2 : (chunksF (fuel + 1) ny (a :: l)).map (List.map f)
          = ((a :: l).take ny).map f
            :: (chunksF fuel ny ((a :: l).drop ny)).map (List.map f) := rfl
      rw [e1, e2, ← List.map_take, ← List.map_drop, chunksF_map f fuel ny]

theorem reshape2_map (f : α → β) (ny : ℕ) (l : List α) :
    reshape2 ny (l.map f) = (reshape2 ny l).map (List.map f) := by
  rw [reshape2, reshape2, List.length_map, chunksF_map]

theorem trapz2_map_mul (c : ℚ) (g : List (List ℚ)) (xs ys : List ℚ) :
    trapz2 (g.map (fun row => row.map (fun q => c * q))) xs ys =
      c * trapz2 g xs ys := by
  rw [trapz2, trapz2, List.map_map]
  have h : g.map ((fun row => trapz row ys) ∘ fun row => row.map (fun q => c * q))
      = (g.map (fun row => trapz row ys)).map (fun q => c * q) := by
    rw [List.map_map]
    exact List.map_congr_left (fun row _ => trapz_map_mul c row ys)
  rw [h, trapz_map_mul]

theorem vecNormSq2d_smul (ny : ℕ) (xs ys : List ℚ) (w : List CQ) (r : ℚ) :
    vecNormSq2d ny xs ys (w.map (csmul r)) = r ^ 2 * vecNormSq2d ny xs ys w := by
  rw [vecNormSq2d, vecNormSq2d, reshape2_map]
  have h : gridNormSq ((reshape2 ny w).map (List.map (csmul r))) =
      (gridNormSq (reshape2 ny w)).map (fun row => row.map (fun q => r ^ 2 * q)) := by
    rw [gridNormSq, gridNormSq, List.map_map, List.map_map]
    refine List.map_congr_left (fun row _ => ?_)
    simp only [Function.comp_apply, List.map_map]
    refine List.map_congr_left (fun z _ => ?_)
    simp only [Function.comp_apply, normSq, csmul]
    ring
  rw [h, trapz2_map_mul]

theorem normalize_step_2d_unitNorm (sqrtq : ℚ → ℚ) (ny : ℕ) (xs ys : List ℚ)
    (w : List CQ) (hpos : 0 < vecNormSq2d ny xs ys w)
    (hsq : sqrtq (vecNormSq2d ny xs ys w) ^ 2 = vecNormSq2d ny xs ys w) :
    vecNormSq2d ny xs ys (normalize_step_2d sqrtq ny xs ys w) = 1 := by
  rw [normalize_step_2d, vecNormSq2d_smul, one_div, inv_pow, hsq]
  exact inv_mul_cancel₀ (ne_of_gt hpos)

theorem cnLoop_length (f : α → α) : ∀ (v : α) (m : ℕ), (cnLoop f v m).length = m
  | _, 0 => rfl
  | v, m + 1 => by rw [cnLoop, List.length_cons, cnLoop_length f (f v) m]

theorem cnLoop_mem (f : α → α) :
    ∀ (v : α) (m : ℕ), ∀ w ∈ cnLoop f v m, ∃ u, w = f u
  | _, 0 => by intro w hw; cases hw
  | v, m + 1 => by
      intro w hw
      rw [cnLoop] at hw
      rcases List.mem_cons.mp hw with h | h
      · exact ⟨v, h⟩
      · exact cnLoop_mem f (f v) m w h


/-- Claim C1 (code bug).  The claim says the flattening used for the
potential diagonal and the emitted snapshots agrees with the index ordering
of the Kronecker-sum Laplacian, so the assembled Laplacian applied to the
C-order raveled grid equals the raveling of the 5-point stencil evaluated at
the grid points the flattened indices denote.  On the 2 × 3 grid with
`dx = dy = 1` and grid function `psiEx i j = 3*i + j`, this already fails at
flattened index 0, which under `V.ravel()` and `reshape((Nx, Ny))` denotes
grid point `(0, 0)`: the code's `kron(identity(Ny), Lx) + kron(Ly,
identity(Nx))` indexes the flat vector with x fastest (column-major), while
the ravel and reshape put y fastest (row-major), so row 0 of the matrix
applies the stencil of a different grid point (value 3 instead of 4). -/
theorem C1_kron_ravel_ordering_mismatch :
    matvec 6 (Lap2d 2 3 1 1) (ravelC 3 psiEx) 0 ≠ stencil2d 2 3 1 1 psiEx 0 0 := by
  have hr : List.range 6 = [0, 1, 2, 3, 4, 5] := rfl
  simp only [matvec, hr, Lap2d, kron, idEntry, lap1dEntry, ravelC, psiEx, stencil2d,
    List.map_cons, List.map_nil, List.sum_cons, List.sum_nil]
  norm_num

/-- Claim C2 (code bug).  The claim says the 2D stationary solve returns the
K algebraically smallest eigenvalues.  The code calls
`eigsh(H, k=num_eigen, which='SM')`, which selects the K eigenvalues of
smallest *magnitude*: on a spectrum `{-3, 1, 2}` with both negative and
positive eigenvalues, `K = 1` selects `1` rather than the algebraically
smallest `-3`. -/
theorem C2_eigsh_selects_smallest_magnitude :
    eigsh_SM [-3, 1, 2] 1 = [1] ∧ lowestAlgebraic [-3, 1, 2] 1 = [-3] ∧
      eigsh_SM [-3, 1, 2] 1 ≠ lowestAlgebraic [-3, 1, 2] 1 := by
  refine ⟨?_, ?_, ?_⟩ <;>
    · simp only [eigsh_SM, sortByAbs, insertByAbs, lowestAlgebraic, sortByLe, insertByLe]
      norm_num

/-- Claim C7 (code bug).  The claim says infinities in the potential are
replaced by a large finite value or masked before the dense conversion so
the dense eigen-decomposition never receives invalid numeric values.  For
the grid `linspace(-1, 1, 4)` with the infinite square well on
`[-1/2, 1/2]` (walls strictly inside the grid), entry `(0, 0)` of the dense
matrix `H.toarray()` handed to `scipy.linalg.eigh` is `+inf`: nothing on the
path masks or replaces infinite potential entries. -/
theorem C7_dense_matrix_carries_infinity :
    H_dense_1d_ext (linspace (-1) 1 4)
      (infinite_well_1d (linspace (-1) 1 4) (-(1/2)) (1/2)) 1 1 0 0 = FV.pinf := by
  have hr : List.range 4 = [0, 1, 2, 3] := rfl
  simp only [H_dense_1d_ext, infinite_well_1d, linspace, hr, solverDx, lap1dEntry,
    List.map_cons, List.map_nil, List.getD, FV.add]
  norm_num [FV.add]

/-- Claim C6, counterexample.  The claim says the expectation value is the
ratio of two composite trapezoidal quadratures (boundary samples at half
weight).  On the grid `[0, 1, 2]` with `psi = [1, 1, 1]` and integrand array
`O = [1, 0, 0]`, the code returns `1/3` while the trapezoidal ratio is
`1/4`. -/
theorem C6_counterexample_not_trapezoidal :
    expectation_custom_expr_1d [0, 1, 2] [(1, 0), (1, 0), (1, 0)] [1, 0, 0] ≠
      trapzExpectation1d [0, 1, 2] [(1, 0), (1, 0), (1, 0)] [1, 0, 0] := by
  simp only [expectation_custom_expr_1d, trapzExpectation1d, solverDx, normSq,
    List.map_cons, List.map_nil, List.sum_cons, List.sum_nil, List.getD]
  norm_num [trapz]

theorem sum_map_normSq_mul (c : ℚ) :
    ∀ psi : List CQ, (psi.map (fun z => normSq z * c)).sum = (psi.map normSq).sum * c
  | [] => by simp
  | z :: psi => by
      simp only [List.map_cons, List.sum_cons, sum_map_normSq_mul c psi]
      ring

theorem sum_map_mul_cc (c d : ℚ) :
    ∀ l : List ℚ, (l.map (fun q => q * c * d)).sum = l.sum * (c * d)
  | [] => by simp
  | a :: l => by
      simp only [List.map_cons, List.sum_cons, sum_map_mul_cc c d l]
      ring

theorem sum_map_rowsum_mul (c d : ℚ) :
    ∀ g : List (List ℚ),
      (g.map (fun row => (row.map (fun q => q * c * d)).sum)).sum
        = (g.map List.sum).sum * (c * d)
  | [] => by simp
  | row :: g => by
      simp only [List.map_cons, List.sum_cons, sum_map_rowsum_mul c d g,
        sum_map_mul_cc c d row]
      ring

/-- Claim C6 as amended: for every grid, wavefunction and observable
integrand array, the 1D and 2D expectation values equal the ratio of two
plain Riemann sums in which every sample — boundary samples included —
carries the full weight `dx` (respectively the full cell area `dx * dy`),
not a ratio of trapezoidal quadratures. -/
theorem C6_expectation_is_riemann_ratio (x : List ℚ) (psi : List CQ)
    (O : List ℚ) (X Y : List (List ℚ)) (psi2 : List (List CQ))
    (O2 : List (List ℚ)) :
    expectation_custom_expr_1d x psi O = riemannExpectation1d x psi O ∧
    expectation_custom_expr_2d X Y psi2 O2 = riemannExpectation2d X Y psi2 O2 := by
  constructor
  · rw [expectation_custom_expr_1d, riemannExpectation1d, sum_map_normSq_mul]
  · rw [expectation_custom_expr_2d, riemannExpectation2d, sum_map_rowsum_mul,
      mul_assoc]

/-- Claim C3, counterexample.  The claim says that requesting more
eigenpairs than the grid has degrees of freedom still returns all available
eigenpairs rather than failing.  On a 2-point grid with `num_eigen = 3`
(and any eigen-decomposition output of the correct 2-column shape — here a
stand-in), the normalization loop `for n in range(num_eigen)` reads
`wavefuncs[:, 2]` of a 2-column array and raises `IndexError`, so the 1D
stationary solve fails instead of returning the two available eigenpairs. -/
theorem C3_counterexample_K_exceeds_dof :
    solve_time_independent_1d (fun _ _ => ([0, 1], [[1, 0], [0, 1]])) id
      [0, 1] [0, 0] 1 1 3 = .error .indexError := rfl

/-- Claim C3 as amended: the positive half of the claim holds only below the
degrees-of-freedom cap, and above it both solvers fail instead of returning
the available eigenpairs.  1D: with the LAPACK contract that `eigh` returns
the full spectrum ascending with one eigenvector column per grid point, for
`K ≤ N` the solver returns the first K eigenvalues sorted ascending with
exactly `min K N = K` eigenvalues and eigenvector columns, while for `K > N`
it raises `IndexError` in the normalization loop (the counterexample).  2D:
`eigsh` accepts only `1 ≤ K < N`; within that range (with the scipy contract
that it returns K eigenvalues and K columns) the solver returns exactly
`min K N = K` eigenvalues and eigenvector grids — in the iterative solver's
own order, not necessarily ascending (see claim C2) — and for every
`K ≥ N`, including `K = N`, it raises `ValueError` rather than returning
`min(K, N)` eigenpairs. -/
theorem C3_amended_sorted_count
    (eigh : (ℕ → ℕ → ℚ) → ℕ → List ℚ × List (List ℚ))
    (eigshF : (ℕ → ℕ → ℚ) → ℕ → ℕ → List ℚ × List (List ℚ))
    (sqrtq : ℚ → ℚ) (x V : List ℚ) (mass hbar : ℚ) (K1 : ℕ)
    (X Y : List (List ℚ)) (V2 : List (List ℚ)) (K2 K3 : ℕ)
    (hx : 2 ≤ x.length) (hK1 : K1 ≤ x.length)
    (hlen : (eigh (Hmat1d x.length (solverDx x) (fun i => V.getD i 0) mass hbar)
      x.length).1.length = x.length)
    (hcols : (eigh (Hmat1d x.length (solverDx x) (fun i => V.getD i 0) mass hbar)
      x.length).2.length = x.length)
    (hsorted : List.Sorted (· ≤ ·)
      (eigh (Hmat1d x.length (solverDx x) (fun i => V.getD i 0) mass hbar)
        x.length).1)
    (hX : 2 ≤ X.length) (hY : 2 ≤ (X.getD 0 []).length)
    (hK2pos : 1 ≤ K2) (hK2 : K2 < X.length * (X.getD 0 []).length)
    (hE2 : (eigshF (Hmat2d X.length (X.getD 0 []).length
        ((X.getD 1 []).getD 0 0 - (X.getD 0 []).getD 0 0)
        ((Y.getD 0 []).getD 1 0 - (Y.getD 0 []).getD 0 0)
        (ravelL V2) mass hbar)
      (X.length * (X.getD 0 []).length) K2).1.length = K2)
    (hC2 : (eigshF (Hmat2d X.length (X.getD 0 []).length
        ((X.getD 1 []).getD 0 0 - (X.getD 0 []).getD 0 0)
        ((Y.getD 0 []).getD 1 0 - (Y.getD 0 []).getD 0 0)
        (ravelL V2) mass hbar)
      (X.length * (X.getD 0 []).length) K2).2.length = K2)
    (hK3 : X.length * (X.getD 0 []).length ≤ K3) :
    (∃ es vs,
      solve_time_independent_1d eigh sqrtq x V mass hbar K1 = .ok (es, vs) ∧
      es.length = min K1 x.length ∧ vs.length = min K1 x.length ∧
      List.Sorted (· ≤ ·) es) ∧
    (∃ es ws,
      solve_time_independent_2d eigshF sqrtq X Y V2 mass hbar K2 = .ok (es, ws) ∧
      es.length = min K2 (X.length * (X.getD 0 []).length) ∧
      ws.length = min K2 (X.length * (X.getD 0 []).length)) ∧
    solve_time_independent_2d eigshF sqrtq X Y V2 mass hbar K3
      = .error .valueError := by
  refine ⟨?_, ?_, ?_⟩
  · have h1 : ¬ (x.length < 2) := by omega
    have h2 : K1 ≤ ((eigh (Hmat1d x.length (solverDx x) (fun i => V.getD i 0)
        mass hbar) x.length).2.take K1).length := by
      rw [List.length_take, hcols]
      omega
    refine ⟨(eigh (Hmat1d x.length (solverDx x) (fun i => V.getD i 0) mass hbar)
        x.length).1.take K1,
      ((eigh (Hmat1d x.length (solverDx x) (fun i => V.getD i 0) mass hbar)
        x.length).2.take K1).map (normalizeCol sqrtq x), ?_, ?_, ?_, ?_⟩
    · simp only [solve_time_independent_1d, h1, if_false, h2, if_true]
    · rw [List.length_take, hlen]
    · rw [List.length_map, List.length_take, hcols]
    · exact List.Pairwise.sublist (List.take_sublist K1 _) hsorted
  · have hg : ¬ (K2 < 1 ∨ X.length * (X.getD 0 []).length ≤ K2) := by omega
    have hacc : K2 ≤ ((eigshF (Hmat2d X.length (X.getD 0 []).length
        ((X.getD 1 []).getD 0 0 - (X.getD 0 []).getD 0 0)
        ((Y.getD 0 []).getD 1 0 - (Y.getD 0 []).getD 0 0)
        (ravelL V2) mass hbar)
      (X.length * (X.getD 0 []).length) K2).2).length := by
      rw [hC2]
    refine ⟨(eigshF (Hmat2d X.length (X.getD 0 []).length
        ((X.getD 1 []).getD 0 0 - (X.getD 0 []).getD 0 0)
        ((Y.getD 0 []).getD 1 0 - (Y.getD 0 []).getD 0 0)
        (ravelL V2) mass hbar)
      (X.length * (X.getD 0 []).length) K2).1,
      ((eigshF (Hmat2d X.length (X.getD 0 []).length
        ((X.getD 1 []).getD 0 0 - (X.getD 0 []).getD 0 0)
        ((Y.getD 0 []).getD 1 0 - (Y.getD 0 []).getD 0 0)
        (ravelL V2) mass hbar)
      (X.length * (X.getD 0 []).length) K2).2.take K2).map (fun col =>
        normalizeGrid sqrtq (X.map (fun row => row.getD 0 0)) (Y.getD 0 [])
          (reshape2 (X.getD 0 []).length col)), ?_, ?_, ?_⟩
    · unfold solve_time_independent_2d
      rw [if_neg (by omega), if_neg (by omega), if_neg hg, if_pos hacc]
    · rw [hE2]
      omega
    · rw [List.length_map, List.length_take, hC2]
      omega
  · unfold solve_time_independent_2d
    rw [if_neg (by omega), if_neg (by omega), if_pos (Or.inr hK3)]

/-- Witness for the amended claim C3 at concrete instances: 1D, a 2-point
grid with zero potential, `K = 2`, and a stand-in dense decomposition
returning the ascending spectrum `[0, 1]` with identity columns; 2D, a
2 × 2 grid (4 degrees of freedom) with `K = 1` succeeding via a stand-in
iterative decomposition returning one eigenpair, and `K = 4` rejected. -/
theorem C3_amended_sorted_count_witness :
    (∃ es vs,
      solve_time_independent_1d (fun _ _ => ([0, 1], [[1, 0], [0, 1]])) id
        [0, 1] [0, 0] 1 1 2 = .ok (es, vs) ∧
      es.length = min 2 ([0, 1] : List ℚ).length ∧
      vs.length = min 2 ([0, 1] : List ℚ).length ∧
      List.Sorted (· ≤ ·) es) ∧
    (∃ es ws,
      solve_time_independent_2d (fun _ _ _ => ([0], [[1, 0, 0, 0]])) id
        [[0, 0], [1, 1]] [[0, 1], [0, 1]] [[0, 0], [0, 0]] 1 1 1
        = .ok (es, ws) ∧
      es.length = min 1 (([[0, 0], [1, 1]] : List (List ℚ)).length *
        (([[0, 0], [1, 1]] : List (List ℚ)).getD 0 []).length) ∧
      ws.length = min 1 (([[0, 0], [1, 1]] : List (List ℚ)).length *
        (([[0, 0], [1, 1]] : List (List ℚ)).getD 0 []).length)) ∧
    solve_time_independent_2d (fun _ _ _ => ([0], [[1, 0, 0, 0]])) id
      [[0, 0], [1, 1]] [[0, 1], [0, 1]] [[0, 0], [0, 0]] 1 1 4
      = .error .valueError :=
  C3_amended_sorted_count (fun _ _ => ([0, 1], [[1, 0], [0, 1]]))
    (fun _ _ _ => ([0], [[1, 0, 0, 0]])) id [0, 1] [0, 0] 1 1 2
    [[0, 0], [1, 1]] [[0, 1], [0, 1]] [[0, 0], [0, 0]] 1 4
    (by norm_num) (by norm_num) rfl rfl (by norm_num [List.sorted_cons])
    (by norm_num) (by norm_num) (by norm_num) (by norm_num) rfl rfl
    (by norm_num)

/-- Claim C5 (confirmed): each time-dependent solver raises the
unsupported-method error exactly when the requested method differs from
"crank-nicolson", independently of every other input — in particular the
gate fires before any time step — and with method "crank-nicolson" that
error is never raised. -/
theorem C5_method_gate (sqrtq : ℚ → ℚ) (luS1 luS2 : List CQ → List CQ)
    (x : List ℚ) (psi0 : List CQ) (V : List ℚ) (X Y : List (List ℚ))
    (psi02 : List (List CQ)) (V2 : List (List ℚ)) (times : List ℚ)
    (mass hbar : ℚ) (method : String) :
    (solve_time_dependent_1d sqrtq luS1 x psi0 V times mass hbar method
        = .error .notImplementedError ↔ method ≠ "crank-nicolson") ∧
    (solve_time_dependent_2d sqrtq luS2 X Y psi02 V2 times mass hbar method
        = .error .notImplementedError ↔ method ≠ "crank-nicolson") := by
  constructor
  · simp only [solve_time_dependent_1d]
    split_ifs with h1 h2 h3 <;> simp_all
  · simp only [solve_time_dependent_2d]
    split_ifs with h1 h2 h3 h4 <;> simp_all

/-- Claim C4 (confirmed, in exact arithmetic): for both time-dependent
solvers, with at least two time points (and a grid of at least two points,
as required by the spacing reads `x[1]`, `X[1,0]`, `Y[0,1]`), the returned
sequence has one snapshot per requested time point, its first snapshot is
exactly the supplied initial wavefunction, and every subsequent snapshot has
grid-quadrature (trapezoidal, nested in 2D) squared norm exactly 1, because
each Crank-Nicolson step result is rescaled by the square root of its own
quadrature norm.  The LU solve is abstract; the hypotheses state that its
outputs have positive quadrature norm and that `numpy.sqrt` is exact on
those norms (the exact-arithmetic counterpart of floating-point
normalization). -/
theorem C4_snapshot_invariants (sqrtq : ℚ → ℚ) (luS1 luS2 : List CQ → List CQ)
    (x : List ℚ) (psi0 : List CQ) (V : List ℚ) (X Y : List (List ℚ))
    (psi02 : List (List CQ)) (V2 : List (List ℚ)) (times : List ℚ)
    (mass hbar : ℚ)
    (hx : 2 ≤ x.length) (ht : 2 ≤ times.length)
    (hX : 2 ≤ X.length) (hY : 2 ≤ (X.getD 0 []).length)
    (h1 : ∀ v : List CQ, 0 < trapzNormSq x (luS1 v) ∧
      sqrtq (trapzNormSq x (luS1 v)) ^ 2 = trapzNormSq x (luS1 v))
    (h2 : ∀ v : List CQ,
      0 < vecNormSq2d (X.getD 0 []).length (X.map (fun row => row.getD 0 0))
          (Y.getD 0 []) (luS2 v) ∧
      sqrtq (vecNormSq2d (X.getD 0 []).length (X.map (fun row => row.getD 0 0))
          (Y.getD 0 []) (luS2 v)) ^ 2
        = vecNormSq2d (X.getD 0 []).length (X.map (fun row => row.getD 0 0))
            (Y.getD 0 []) (luS2 v)) :
    (∃ L, solve_time_dependent_1d sqrtq luS1 x psi0 V times mass hbar
        "crank-nicolson" = .ok L ∧
      L.length = times.length ∧ L.head? = some psi0 ∧
      ∀ psi ∈ L.tail, trapzNormSq x psi = 1) ∧
    (∃ L, solve_time_dependent_2d sqrtq luS2 X Y psi02 V2 times mass hbar
        "crank-nicolson" = .ok L ∧
      L.length = times.length ∧ L.head? = some psi02 ∧
      ∀ g ∈ L.tail,
        trapz2 (gridNormSq g) (X.map (fun row => row.getD 0 0)) (Y.getD 0 []) = 1) := by
  constructor
  · have e1 : solve_time_dependent_1d sqrtq luS1 x psi0 V times mass hbar
        "crank-nicolson"
        = .ok (psi0 :: cnLoop (fun v => normalize_step_1d sqrtq x
            (luS1 (bdot_1d x V mass hbar (times.getD 1 0 - times.getD 0 0) v)))
            psi0 (times.length - 1)) := by
      unfold solve_time_dependent_1d
      rw [if_neg (by simp), if_neg (by omega), if_neg (by omega)]
    refine ⟨_, e1, ?_, rfl, ?_⟩
    · rw [List.length_cons, cnLoop_length]
      omega
    · intro psi hpsi
      rw [List.tail_cons] at hpsi
      obtain ⟨u, rfl⟩ := cnLoop_mem _ _ _ psi hpsi
      exact normalize_step_1d_unitNorm sqrtq x _ (h1 _).1 (h1 _).2
  · have e2 : solve_time_dependent_2d sqrtq luS2 X Y psi02 V2 times mass hbar
        "crank-nicolson"
        = .ok (psi02 ::
            (cnLoop (fun v => normalize_step_2d sqrtq (X.getD 0 []).length
                (X.map (fun row => row.getD 0 0)) (Y.getD 0 [])
                (luS2 (bdot_2d X.length (X.getD 0 []).length
                  ((X.getD 1 []).getD 0 0 - (X.getD 0 []).getD 0 0)
                  ((Y.getD 0 []).getD 1 0 - (Y.getD 0 []).getD 0 0)
                  (ravelL V2) mass hbar (times.getD 1 0 - times.getD 0 0) v)))
              (ravelL psi02) (times.length - 1)).map
              (reshape2 (X.getD 0 []).length)) := by
      unfold solve_time_dependent_2d
      rw [if_neg (by simp), if_neg (by omega), if_neg (by omega), if_neg (by omega)]
    refine ⟨_, e2, ?_, rfl, ?_⟩
    · rw [List.length_cons, List.length_map, cnLoop_length]
      omega
    · intro g hg
      rw [List.tail_cons] at hg
      obtain ⟨e, he, rfl⟩ := List.mem_map.mp hg
      obtain ⟨u, rfl⟩ := cnLoop_mem _ _ _ e he
      show vecNormSq2d (X.getD 0 []).length (X.map (fun row => row.getD 0 0))
        (Y.getD 0 []) (normalize_step_2d sqrtq (X.getD 0 []).length
          (X.map (fun row => row.getD 0 0)) (Y.getD 0 []) _) = 1
      exact normalize_step_2d_unitNorm sqrtq _ _ _ _ (h2 _).1 (h2 _).2

/-- Witness for claim C4 at a concrete instance: 2-point grids, zero
potentials, times `[0, 1]`, stand-in LU solves returning the constant state
of quadrature norm 1, and `numpy.sqrt` as the identity (exact on 1). -/
theorem C4_snapshot_invariants_witness :
    (∃ L, solve_time_dependent_1d id (fun _ => [(1, 0), (1, 0)])
        [0, 1] [(5, 0), (7, 0)] [0, 0] [0, 1] 1 1 "crank-nicolson" = .ok L ∧
      L.length = ([0, 1] : List ℚ).length ∧ L.head? = some [(5, 0), (7, 0)] ∧
      ∀ psi ∈ L.tail, trapzNormSq [0, 1] psi = 1) ∧
    (∃ L, solve_time_dependent_2d id (fun _ => [(1, 0), (1, 0), (1, 0), (1, 0)])
        [[0, 0], [1, 1]] [[0, 1], [0, 1]] [[(1, 0), (0, 0)], [(0, 0), (0, 0)]]
        [[0, 0], [0, 0]] [0, 1] 1 1 "crank-nicolson" = .ok L ∧
      L.length = ([0, 1] : List ℚ).length ∧
      L.head? = some [[(1, 0), (0, 0)], [(0, 0), (0, 0)]] ∧
      ∀ g ∈ L.tail,
        trapz2 (gridNormSq g)
          (([[0, 0], [1, 1]] : List (List ℚ)).map (fun row => row.getD 0 0))
          (([[0, 1], [0, 1]] : List (List ℚ)).getD 0 []) = 1) :=
  C4_snapshot_invariants id (fun _ => [(1, 0), (1, 0)])
    (fun _ => [(1, 0), (1, 0), (1, 0), (1, 0)])
    [0, 1] [(5, 0), (7, 0)] [0, 0] [[0, 0], [1, 1]] [[0, 1], [0, 1]]
    [[(1, 0), (0, 0)], [(0, 0), (0, 0)]] [[0, 0], [0, 0]] [0, 1] 1 1
    (by norm_num) (by norm_num) (by norm_num) (by norm_num)
    (fun v => by norm_num [trapzNormSq, trapz, normSq])
    (fun v => by
      norm_num [vecNormSq2d, reshape2, chunksF, gridNormSq, trapz2, trapz, normSq])

/-- Claim C9 (confirmed, with the archive codec modelled by its documented
numpy semantics): saving named arrays with `np.savez_compressed` and loading
the archive back yields, for each stored name, exactly the array that was
saved.  Python keyword arguments guarantee the names are distinct, which is
the nodup hypothesis. -/
theorem C9_save_load_roundtrip (kwargs : List (String × List ℚ)) (name : String)
    (arr : List ℚ) (hnodup : (kwargs.map Prod.fst).Nodup)
    (hmem : (name, arr) ∈ kwargs) :
    load_simulation (save_simulation kwargs) name = some arr := by
  induction kwargs with
  | nil => cases hmem
  | cons p l ih =>
      rw [List.map_cons, List.nodup_cons] at hnodup
      rcases List.mem_cons.mp hmem with h | h
      · rw [← h, load_simulation, save_simulation,
          List.find?_cons_of_pos _ (by simp)]
        rfl
      · have hne : p.1 ≠ name := by
          intro e
          exact hnodup.1 (e ▸ List.mem_map_of_mem Prod.fst h)
        rw [load_simulation, save_simulation,
          List.find?_cons_of_neg _ (by simp [hne])]
        exact ih hnodup.2 h

/-- Witness for claim C9 at a concrete archive of two named arrays. -/
theorem C9_save_load_roundtrip_witness :
    load_simulation (save_simulation [("x", [1, 2]), ("psi", [3])]) "psi"
      = some [3] :=
  C9_save_load_roundtrip [("x", [1, 2]), ("psi", [3])] "psi" [3]
    (by simp) (by simp)

theorem linspace_getD (a b : ℚ) (n i : ℕ) (h : i < n) :
    (linspace a b n).getD i 0 = a + (b - a) * i / (n - 1) := by
  have hlen : i < ((List.range n).map
      (fun (j : ℕ) => a + (b - a) * (j : ℚ) / ((n : ℚ) - 1))).length := by
    rw [List.length_map, List.length_range]
    exact h
  rw [linspace, List.getD_eq_getElem _ _ hlen, List.getElem_map,
    List.getElem_range]

/-- Claim C10 (confirmed): the grid builder validates only the point count.
For every `num_points ≥ 2` and bounds with `xmax ≤ xmin`, `create_1d_grid`
returns without error the linspace array with spacing
`dx = (xmax - xmin)/(num_points - 1) ≤ 0`, the array is non-increasing,
`xmin = xmax` gives `dx = 0`, and the spacing the downstream solvers
recompute from the array (`x[1] - x[0]`, the quantity they square and divide
by when assembling the Laplacian) is that same nonpositive `dx`. -/
theorem C10_degenerate_bounds_accepted (xmin xmax : ℚ) (n : ℕ)
    (hn : 2 ≤ n) (hle : xmax ≤ xmin) :
    create_1d_grid xmin xmax n
        = .ok (linspace xmin xmax n, (xmax - xmin) / (n - 1)) ∧
      (xmax - xmin) / ((n : ℚ) - 1) ≤ 0 ∧
      (xmin = xmax → (xmax - xmin) / ((n : ℚ) - 1) = 0) ∧
      (∀ i, i + 1 < n →
        (linspace xmin xmax n).getD (i + 1) 0 ≤ (linspace xmin xmax n).getD i 0) ∧
      solverDx (linspace xmin xmax n) = (xmax - xmin) / ((n : ℚ) - 1) := by
  have hpos : (0 : ℚ) < (n : ℚ) - 1 := by
    have h2 : (2 : ℚ) ≤ (n : ℚ) := by exact_mod_cast hn
    linarith
  have hba : xmax - xmin ≤ 0 := by linarith
  have hdx : (linspace xmin xmax n).getD 1 0 - (linspace xmin xmax n).getD 0 0
      = (xmax - xmin) / ((n : ℚ) - 1) := by
    rw [linspace_getD _ _ _ 1 (by omega), linspace_getD _ _ _ 0 (by omega)]
    push_cast
    ring
  refine ⟨?_, ?_, ?_, ?_, hdx⟩
  · rw [create_1d_grid, if_neg (by omega)]
    show Except.ok (linspace xmin xmax n,
      (linspace xmin xmax n).getD 1 0 - (linspace xmin xmax n).getD 0 0) = _
    rw [hdx]
  · exact div_nonpos_iff.mpr (Or.inr ⟨hba, le_of_lt hpos⟩)
  · intro e
    rw [e, sub_self, zero_div]
  · intro i hi
    rw [linspace_getD _ _ _ _ hi, linspace_getD _ _ _ _ (by omega)]
    have key : (xmax - xmin) * ((i : ℚ) + 1) ≤ (xmax - xmin) * (i : ℚ) :=
      mul_le_mul_of_nonpos_left (by linarith) hba
    have hq : (xmax - xmin) * ((i : ℚ) + 1) / ((n : ℚ) - 1)
        ≤ (xmax - xmin) * (i : ℚ) / ((n : ℚ) - 1) :=
      (div_le_div_iff_of_pos_right hpos).mpr key
    push_cast
    linarith

/-- Witness for claim C10 at the degenerate instance `xmin = 1 > xmax = 0`
with 3 grid points. -/
theorem C10_degenerate_bounds_witness :
    create_1d_grid 1 0 3 = .ok (linspace 1 0 3, ((0 : ℚ) - 1) / ((3 : ℕ) - 1)) ∧
      ((0 : ℚ) - 1) / (((3 : ℕ) : ℚ) - 1) ≤ 0 ∧
      ((1 : ℚ) = 0 → ((0 : ℚ) - 1) / (((3 : ℕ) : ℚ) - 1) = 0) ∧
      (∀ i, i + 1 < 3 →
        (linspace 1 0 3).getD (i + 1) 0 ≤ (linspace 1 0 3).getD i 0) ∧
      solverDx (linspace 1 0 3) = ((0 : ℚ) - 1) / (((3 : ℕ) : ℚ) - 1) :=
  C10_degenerate_bounds_accepted 1 0 3 (by norm_num) (by norm_num)
